import Mathlib

/-!
Verification of the Dynamic-Web-Scraper harvesting pipeline.

Shallow embedding of the repository's core (src/scraper.py, src/main.py):
price normalization, size-label cleanup, variant price parsing,
deduplication, the lightweight collection paginator, both product-detail
resolvers, the batch orchestration loop, and the single-flight guard of
the Flask endpoint.  Strings are modelled over `List Char` (Python `str`
operations restricted to the character sets actually exercised by the
code), Python floats as exact rationals, and all effectful calls
(HTTP GET, HTML parsing, the Selenium controller) as explicit
environments describing their outcomes.
-/

namespace Scraper

/-! ### Python string primitives (over `List Char`) -/

/-- Python `str.strip()`: drop whitespace from both ends. -/
def stripL (l : List Char) : List Char :=
  ((l.dropWhile Char.isWhitespace).reverse.dropWhile Char.isWhitespace).reverse

/-- Python `str.strip()` on `String`. -/
def stripS (s : String) : String := String.mk (stripL s.data)

/-- Python `str.lower()` (ASCII range, which covers all labels the code handles). -/
def lowerL (l : List Char) : List Char := l.map Char.toLower

/-- Python `str.lower()` on `String`. -/
def lowerS (s : String) : String := String.mk (lowerL s.data)

/-- Python `pat in s` substring test. -/
def containsSub (s pat : String) : Bool := decide (pat.data <:+: s.data)

/-- Fuel-indexed worker for `removeAllL`; the fuel is the list length, so
the structural recursion mirrors the left-to-right non-overlapping scan
of Python `str.replace`. -/
def removeAllAux (pat : List Char) : Nat → List Char → List Char
  | _, [] => []
  | 0, l => l
  | fuel + 1, c :: rest =>
    if !pat.isEmpty && pat.isPrefixOf (c :: rest) then
      removeAllAux pat fuel ((c :: rest).drop pat.length)
    else
      c :: removeAllAux pat fuel rest

/-- Python `s.replace(pat, "")`: remove all occurrences of `pat`,
scanning left to right (non-overlapping). -/
def removeAllL (pat l : List Char) : List Char := removeAllAux pat l.length l

/-- Python `s.replace(pat, "")` on `String`. -/
def removeAllS (s pat : String) : String := String.mk (removeAllL pat.data s.data)

/-! ### Price normalizer — `format_price` (src/scraper.py lines 54-63) -/

/-- The character class kept by `re.sub(r"[^\d.,€$£¥₹]", "", …)`. -/
def keepChar (c : Char) : Bool :=
  c.isDigit || c == '.' || c == ',' || c == '€' || c == '$' || c == '£' || c == '¥' || c == '₹'

/-- Pass 1 of the separator swap: `.replace('.', '#')`. -/
def swapPass1 (c : Char) : Char := if c = '.' then '#' else c

/-- Pass 2 of the separator swap: `.replace(',', '.')`. -/
def swapPass2 (c : Char) : Char := if c = ',' then '.' else c

/-- Pass 3 of the separator swap: `.replace('#', ',')`. -/
def swapPass3 (c : Char) : Char := if c = '#' then ',' else c

/-- The three-pass placeholder substitution of lines 61-62 (each
`str.replace` with single-character arguments is a character map). -/
def sepSwap (l : List Char) : List Char :=
  ((l.map swapPass1).map swapPass2).map swapPass3

/-- `format_price` (src/scraper.py lines 54-63): `None` for an empty
(falsy) input, else strip, delete every character outside the class
`[\d.,€$£¥₹]`, and run the `.`/`,` placeholder swap. -/
def format_price (price_text : String) : Option String :=
  if price_text = "" then none
  else some (String.mk (sepSwap ((stripL price_text.data).filter keepChar)))

/-! ### Claim C2 — idempotence of `format_price` on canonical input -/

/-- C2 (code_bug evidence): on the already-canonical input `"€12,50"` the
separator swap of `format_price` turns the comma into a period, returning
`"€12.50"` instead of the unchanged `"€12,50"` promised by the function's
own docstring ("Format price to €X,XX format"). -/
theorem format_price_not_idempotent_on_canonical :
    format_price "€12,50" = some "€12.50" ∧
    format_price "€12,50" ≠ some "€12,50" := by
  constructor
  · rfl
  · decide

/-! ### Claim C3 — digit-free inputs -/

/-- C3 counterexample: a currency-symbol-only input is non-empty, so
`format_price` returns the retained symbol `"€"` rather than `none`. -/
theorem format_price_currency_only_not_none :
    format_price "€" = some "€" ∧ format_price "€" ≠ none := by
  constructor
  · rfl
  · decide

/-- Each swap pass maps non-digit characters to non-digit characters. -/
theorem sepSwap_no_digits {l : List Char}
    (h : ∀ c ∈ l, c.isDigit = false) :
    ∀ c ∈ sepSwap l, c.isDigit = false := by
  intro c hc
  simp only [sepSwap, List.mem_map] at hc
  obtain ⟨b, ⟨a, ⟨a0, ha0, rfl⟩, rfl⟩, rfl⟩ := hc
  have h0 := h a0 ha0
  simp only [swapPass1, swapPass2, swapPass3]
  split <;> split <;> first | decide | (split <;> first | decide | exact h0)

/-- Characters surviving `stripL` come from the original list. -/
theorem stripL_subset {l : List Char} {c : Char} (hc : c ∈ stripL l) : c ∈ l := by
  simp only [stripL, List.mem_reverse] at hc
  exact (List.dropWhile_sublist _).mem ((List.mem_reverse).mp ((List.dropWhile_sublist _).mem hc))

/-- C3 (amended): `format_price` never raises and returns `none` exactly
for the empty input; every non-empty input — digits or not — yields
`some` string, and a digit-free input yields a digit-free string
(possibly empty, e.g. `"abc" ↦ some ""`), not `none`. -/
theorem format_price_no_digit_behavior :
    format_price "" = none ∧
    ∀ s : String, s ≠ "" → ∃ t, format_price s = some t ∧
      ((∀ c ∈ s.data, c.isDigit = false) → ∀ c ∈ t.data, c.isDigit = false) := by
  refine ⟨rfl, ?_⟩
  intro s hs
  refine ⟨String.mk (sepSwap ((stripL s.data).filter keepChar)), by simp [format_price, hs], ?_⟩
  intro hall
  apply sepSwap_no_digits
  intro c hc
  exact hall c (stripL_subset (List.mem_of_mem_filter hc))

/-- C3 witness: instantiating the amended theorem at `"abc"`. -/
theorem format_price_no_digit_witness :
    ∃ t, format_price "abc" = some t ∧
      ((∀ c ∈ ("abc" : String).data, c.isDigit = false) →
        ∀ c ∈ t.data, c.isDigit = false) :=
  format_price_no_digit_behavior.2 "abc" (by decide)

/-! ### Size-label cleanup (src/scraper.py lines 306-310 and 546-547) -/

/-- Cleanup in `extract_product_details_light` (lines 306-310): a label
case-insensitively equal to `'default title'` becomes `'Standard'`; then,
when the lowercased label contains `'sample'`, the exact spellings
`'sample'` and `'Sample'` are removed and the result stripped. -/
def cleanSizeLight (s : String) : String :=
  let s1 := if lowerS s = "default title" then "Standard" else s
  if containsSub (lowerS s1) "sample" then
    stripS (removeAllS (removeAllS s1 "sample") "Sample")
  else s1

/-- Cleanup in the Selenium `extract_product_details` (lines 546-547):
only the `'sample'` removal step, no `'Default Title'` handling. -/
def cleanSizeSel (s : String) : String :=
  if containsSub (lowerS s) "sample" then
    stripS (removeAllS (removeAllS s "sample") "Sample")
  else s

/-! ### Claim C7 — size-label cleanup -/

/-- C7 counterexample: the claim says `"SAMPLE 50ml"` becomes `"50ml"`,
but the code only removes the exact spellings `'sample'`/`'Sample'`, so
the all-caps label passes through unchanged. -/
theorem clean_size_uppercase_sample_unchanged :
    cleanSizeLight "SAMPLE 50ml" = "SAMPLE 50ml" ∧
    cleanSizeLight "SAMPLE 50ml" ≠ "50ml" := by
  constructor
  · rfl
  · decide

/-- C7 (amended): size-label cleanup removes only the exact spellings
`"sample"` and `"Sample"` (then strips whitespace) when the lowercased
label contains `"sample"`; labels whose occurrences use any other casing
are left unchanged, as is any label that never mentions sample; a label
case-insensitively equal to `"Default Title"` becomes `"Standard"`. -/
theorem clean_size_exact_case_rule :
    (∀ s : String, lowerS s ≠ "default title" →
        containsSub (lowerS s) "sample" = false → cleanSizeLight s = s) ∧
    cleanSizeLight "Sample 50ml" = "50ml" ∧
    cleanSizeLight "sample 50ml" = "50ml" ∧
    cleanSizeLight "SAMPLE 50ml" = "SAMPLE 50ml" ∧
    (∀ s : String, lowerS s = "default title" → cleanSizeLight s = "Standard") ∧
    cleanSizeSel "Sample 50ml" = "50ml" ∧
    cleanSizeSel "SAMPLE 50ml" = "SAMPLE 50ml" ∧
    (∀ s : String, containsSub (lowerS s) "sample" = false → cleanSizeSel s = s) := by
  refine ⟨?_, rfl, rfl, rfl, ?_, rfl, rfl, ?_⟩
  · intro s h1 h2
    simp [cleanSizeLight, h1, h2]
  · intro s h1
    have h2 : containsSub (lowerS "Standard") "sample" = false := by decide
    simp [cleanSizeLight, h1, h2]
  · intro s h
    simp [cleanSizeSel, h]

/-- C7 witness: the general unchanged-case conjunct applied at `"50ml"`. -/
theorem clean_size_rule_witness : cleanSizeLight "50ml" = "50ml" :=
  clean_size_exact_case_rule.1 "50ml" (by decide) (by decide)

/-! ### Variant price parsing — `_parse_price_cents`
(src/scraper.py lines 217-235) -/

/-- The dynamic type of a Shopify variant `price` field: Python `None`,
`int`, `float` (modelled as an exact rational), `str`, or anything else. -/
inductive PVal where
  | vnone
  | vint (n : Int)
  | vfloat (q : ℚ)
  | vstr (s : String)
  | vother
deriving DecidableEq

/-- Python `round` on a rational: round half to even (banker's rounding),
as applied by `round(value * 100)`. -/
def pyRound (q : ℚ) : Int :=
  let f : Int := q.floor
  let r : ℚ := q - f
  if r < 1/2 then f
  else if 1/2 < r then f + 1
  else if f % 2 = 0 then f else f + 1

/-- Python `int` on a rational: truncation toward zero. -/
def pyTrunc (q : ℚ) : Int := if 0 ≤ q then q.floor else q.ceil

/-- Numeric value of an ASCII digit string. -/
def digitsToNat (l : List Char) : Nat := l.foldl (fun a c => 10 * a + (c.toNat - 48)) 0

/-- Python `str.isdigit()`: non-empty and all digits (ASCII model). -/
def isDigitStr (l : List Char) : Bool := !l.isEmpty && l.all Char.isDigit

/-- Python `float(...)` on the plain decimal literals the scraper meets:
optional sign, integer digits, optional fractional part.  Exotic float
syntax (exponents, `inf`/`nan`, underscores) is outside the spec's scope
and treated as unparseable. -/
def parseDecimal (l : List Char) : Option ℚ :=
  let sgn : Int := match l with
    | '-' :: _ => -1
    | _ => 1
  let body : List Char := match l with
    | '-' :: r => r
    | '+' :: r => r
    | r => r
  let ip := body.takeWhile Char.isDigit
  let rest := body.dropWhile Char.isDigit
  match rest with
  | [] => if ip.isEmpty then none else some ((sgn : ℚ) * digitsToNat ip)
  | '.' :: fr =>
    if fr.all Char.isDigit && (!ip.isEmpty || !fr.isEmpty) then
      some ((sgn : ℚ) * ((digitsToNat ip : ℚ) + (digitsToNat fr : ℚ) / (10 : ℚ) ^ fr.length))
    else none
  | _ => none

/-- `_parse_price_cents` (lines 217-235): `None` stays `None`; an `int`
is already cents; a `float` below 1000 is dollars (`round(v*100)`),
otherwise cents (`int(v)`); a stripped digits-only string is cents;
any other string goes through `float(...)` as dollars; a parse failure
(or any non-numeric type) yields `None` via the `except` clause. -/
def parse_price_cents (v : PVal) : Option Int :=
  match v with
  | .vnone => none
  | .vint n => some n
  | .vfloat q => if q < 1000 then some (pyRound (q * 100)) else some (pyTrunc q)
  | .vstr s =>
    let t := stripL s.data
    if isDigitStr t then some (digitsToNat t : Int)
    else
      match parseDecimal t with
      | some q => some (pyRound (q * 100))
      | none => none
  | .vother => none

/-! ### Data model -/

/-- A product stub produced by the collection paginator. -/
structure Stub where
  name : String
  url : String
deriving DecidableEq

/-- One `{'size': …, 'price': …}` record; the price slot holds the
result of `format_price` (a string in the code, `Option` here because
`format_price` is partial). -/
structure SizePrice where
  size : String
  price : Option String
deriving DecidableEq

/-- A `ProductDetail` record as returned by either detail resolver. -/
structure ProductDetail where
  name : String
  url : String
  size_price_combinations : List SizePrice
  error : Option String
deriving DecidableEq

/-- `_format_cents_to_price_text` needs decimal rendering of naturals;
fuel-indexed so it reduces structurally. -/
def natDigitsAux : Nat → Nat → List Char
  | 0, _ => []
  | fuel + 1, n =>
    if n < 10 then [Char.ofNat (48 + n)]
    else natDigitsAux fuel (n / 10) ++ [Char.ofNat (48 + n % 10)]

/-- Decimal rendering of a natural number. -/
def natToChars (n : Nat) : List Char := natDigitsAux (n + 1) n

/-- `_format_cents_to_price_text` (src/scraper.py lines 160-168):
`f"{currency_symbol}{cents/100:.2f}"`, modelled as exact decimal
rendering of the integer cents (the two-decimal float formatting is
exact for the magnitudes the scraper meets). -/
def format_cents_to_price_text (cents : Int) (sym : String) : String :=
  let a := cents.natAbs
  let sign := if cents < 0 then "-" else ""
  sym ++ sign ++ String.mk (natToChars (a / 100)) ++ "." ++
    (if a % 100 < 10 then "0" else "") ++ String.mk (natToChars (a % 100))

/-! ### Deduplication of size-price combinations
(src/scraper.py lines 325-333 and 612-620) -/

/-- The `(combo['size'], combo['price'])` key used by the seen-set. -/
def comboKey (c : SizePrice) : String × Option String := (c.size, c.price)

/-- The dedup loop: walk the list keeping a `seen` set of keys, appending
a combination to the output only when its key is new. -/
def dedupAux (seen : List (String × Option String)) : List SizePrice → List SizePrice
  | [] => []
  | c :: rest =>
    if comboKey c ∈ seen then dedupAux seen rest
    else c :: dedupAux (comboKey c :: seen) rest

/-- Duplicate removal as performed at the end of both detail resolvers. -/
def dedupCombos (l : List SizePrice) : List SizePrice := dedupAux [] l

/-- Every output of the dedup loop is a sublist of its input. -/
theorem dedupAux_sublist (seen : List (String × Option String)) :
    ∀ l : List SizePrice, (dedupAux seen l).Sublist l := by
  intro l
  induction l generalizing seen with
  | nil => exact List.Sublist.refl []
  | cons c rest ih =>
    by_cases h : comboKey c ∈ seen
    · simpa [dedupAux, h] using (ih seen).cons c
    · simpa [dedupAux, h] using (ih (comboKey c :: seen)).cons₂ c

/-- No element emitted by the dedup loop has a key in `seen`. -/
theorem dedupAux_not_seen {seen : List (String × Option String)}
    {l : List SizePrice} {c : SizePrice} (hc : c ∈ dedupAux seen l) :
    comboKey c ∉ seen := by
  induction l generalizing seen with
  | nil => simp [dedupAux] at hc
  | cons a rest ih =>
    by_cases h : comboKey a ∈ seen
    · rw [dedupAux, if_pos h] at hc
      exact ih hc
    · rw [dedupAux, if_neg h, List.mem_cons] at hc
      rcases hc with rfl | hc
      · exact h
      · exact fun hs => ih hc (List.mem_cons_of_mem _ hs)

/-- The dedup loop emits pairwise key-distinct elements. -/
theorem dedupAux_pairwise (seen : List (String × Option String)) :
    ∀ l : List SizePrice,
      (dedupAux seen l).Pairwise (fun a b => comboKey a ≠ comboKey b) := by
  intro l
  induction l generalizing seen with
  | nil => simp [dedupAux]
  | cons c rest ih =>
    by_cases h : comboKey c ∈ seen
    · simpa [dedupAux, h] using ih seen
    · rw [dedupAux, if_neg h]
      refine List.Pairwise.cons ?_ (ih _)
      intro b hb
      have := dedupAux_not_seen hb
      exact fun he => this (by simp [he])

/-- Every emitted element is the first occurrence of its key among the
elements whose key is not already in `seen`. -/
theorem dedupAux_first_occ {seen : List (String × Option String)}
    {l : List SizePrice} {c : SizePrice} (hc : c ∈ dedupAux seen l) :
    ∃ p s, l = p ++ c :: s ∧
      ∀ b ∈ p, comboKey b = comboKey c → comboKey b ∈ seen := by
  induction l generalizing seen with
  | nil => simp [dedupAux] at hc
  | cons a rest ih =>
    by_cases h : comboKey a ∈ seen
    · rw [dedupAux, if_pos h] at hc
      obtain ⟨p, s, rfl, hp⟩ := ih hc
      refine ⟨a :: p, s, rfl, ?_⟩
      intro b hb he
      rw [List.mem_cons] at hb
      rcases hb with rfl | hb
      · exact h
      · exact hp b hb he
    · rw [dedupAux, if_neg h, List.mem_cons] at hc
      rcases hc with rfl | hc
      · exact ⟨[], rest, rfl, by simp⟩
      · obtain ⟨p, s, rfl, hp⟩ := ih hc
        have hkey : comboKey c ∉ comboKey a :: seen := dedupAux_not_seen hc
        refine ⟨a :: p, s, rfl, ?_⟩
        intro b hb he
        rw [List.mem_cons] at hb
        rcases hb with rfl | hb
        · exact absurd (show comboKey c ∈ comboKey b :: seen by simp [he]) hkey
        · have hmem := hp b hb he
          rw [List.mem_cons] at hmem
          rcases hmem with hx | hx
          · exact absurd
              (show comboKey c ∈ comboKey a :: seen by simp [he.symm.trans hx]) hkey
          · exact hx

/-- Every key of the input survives into the output of the dedup loop
(unless it was already in `seen`). -/
theorem dedupAux_complete {seen : List (String × Option String)}
    {l : List SizePrice} {c : SizePrice} (hc : c ∈ l) :
    comboKey c ∈ seen ∨ ∃ d ∈ dedupAux seen l, comboKey d = comboKey c := by
  induction l generalizing seen with
  | nil => simp at hc
  | cons a rest ih =>
    rw [List.mem_cons] at hc
    by_cases h : comboKey a ∈ seen
    · rw [dedupAux, if_pos h]
      rcases hc with rfl | hc
      · exact Or.inl h
      · exact ih hc
    · rw [dedupAux, if_neg h]
      rcases hc with rfl | hc
      · exact Or.inr ⟨c, List.mem_cons_self _ _, rfl⟩
      · rcases @ih (comboKey a :: seen) hc with hx | ⟨d, hd, he⟩
        · rw [List.mem_cons] at hx
          rcases hx with hx | hx
          · exact Or.inr ⟨a, List.mem_cons_self _ _, hx.symm⟩
          · exact Or.inl hx
        · exact Or.inr ⟨d, List.mem_cons_of_mem _ hd, he⟩

/-! ### Claim C5 — deduplication is an order-preserving set-reduction -/

/-- C5: for every combination list, the dedup pass returns a subsequence
of the input, no two of whose elements share a `(size, price)` key; each
output element is the first occurrence of its key in the input, and every
input key is represented in the output. -/
theorem dedup_first_occurrence_set_reduction (l : List SizePrice) :
    (dedupCombos l).Sublist l ∧
    (dedupCombos l).Pairwise (fun a b => comboKey a ≠ comboKey b) ∧
    (∀ c ∈ dedupCombos l, ∃ p s, l = p ++ c :: s ∧
      ∀ b ∈ p, comboKey b ≠ comboKey c) ∧
    (∀ c ∈ l, ∃ d ∈ dedupCombos l, comboKey d = comboKey c) := by
  refine ⟨dedupAux_sublist [] l, dedupAux_pairwise [] l, ?_, ?_⟩
  · intro c hc
    obtain ⟨p, s, rfl, hp⟩ := dedupAux_first_occ hc
    exact ⟨p, s, rfl, fun b hb he => absurd (hp b hb he) (List.not_mem_nil _)⟩
  · intro c hc
    rcases dedupAux_complete hc with hx | hx
    · exact absurd hx (List.not_mem_nil _)
    · exact hx

/-- C5 witness: the set-reduction theorem applied to the spec's scenario
list, where the cleaned `50ml` label collides at the same price. -/
theorem dedup_set_reduction_witness :
    ∀ c ∈ [⟨"50ml", some "$10,00"⟩, ⟨"50ml", some "$10,00"⟩,
           (⟨"200ml", some "$20,00"⟩ : SizePrice)],
      ∃ d ∈ dedupCombos [⟨"50ml", some "$10,00"⟩, ⟨"50ml", some "$10,00"⟩,
           (⟨"200ml", some "$20,00"⟩ : SizePrice)], comboKey d = comboKey c :=
  (dedup_first_occurrence_set_reduction _).2.2.2

/-! ### Product detail resolution — lightweight mode
(src/scraper.py lines 196-343) -/

/-- A Shopify variant as read from product JSON: `getOption n` models
`v.get(f"option{n}")`, `title` models `v.get('title')`, and the two
price slots carry the dynamic values handed to `_parse_price_cents`. -/
structure Variant where
  getOption : Nat → Option String
  title : Option String
  price : PVal
  price_cents : PVal

/-- A parsed Shopify product: the `variants` list and the declared
option names (`options[i]['name']`, modelled as the name strings). -/
structure SProduct where
  variants : List Variant
  options : List String

/-- Python truthiness of an optional string (`None` and `""` are falsy). -/
def pyTruthy : Option String → Bool
  | none => false
  | some s => s != ""

/-- Python `a or b` on optional strings: `a` if truthy, else `b`. -/
def pyOr (a b : Option String) : Option String := if pyTruthy a then a else b

/-- Index of the option named `'size'` (case-insensitive, stripped),
as in lines 285-291. -/
def findSizeIdx (options : List String) : Option Nat :=
  options.findIdx? (fun nm => lowerS (stripS nm) = "size")

/-- The size label chosen for a variant (lines 293-303): the declared
size option if present and truthy, else the `option1`/`option2`/
`option3`/`title`/`'Variant'` fallback chain. -/
def sizeTextOf (sizeIdx : Option Nat) (v : Variant) : String :=
  let st0 : Option String := match sizeIdx with
    | some i => v.getOption (i + 1)
    | none => none
  let chain := pyOr (v.getOption 1) (pyOr (v.getOption 2)
    (pyOr (v.getOption 3) (pyOr v.title (some "Variant"))))
  (if pyTruthy st0 then st0 else chain).getD "Variant"

/-- Processing of one variant (lines 293-323): clean the size label,
normalize the price (`price`, falling back to `price_cents`), and emit a
combination only when a price parsed; otherwise the variant is skipped. -/
def variantCombo (sizeIdx : Option Nat) (v : Variant) : Option SizePrice :=
  let st := cleanSizeLight (sizeTextOf sizeIdx v)
  let cents := match parse_price_cents v.price with
    | some c => some c
    | none => parse_price_cents v.price_cents
  match cents with
  | some c => some ⟨st, format_price (format_cents_to_price_text c "$")⟩
  | none => none

/-- All combinations contributed by a product's variants, in order. -/
def variantCombos (data : SProduct) : List SizePrice :=
  data.variants.filterMap (variantCombo (findSizeIdx data.options))

/-- Outcome of fetching and parsing the product page itself (tier 2/3):
the embedded-JSON scan result and the `.price__container` text. -/
structure PageDoc where
  embedded : Option SProduct
  priceContainer : Option String

/-- Environment describing the effectful calls of
`extract_product_details_light`: the product-JSON endpoint outcome
(tier 1, whose own failures are swallowed by the inner `except`), and
the product-page fetch (tiers 2-3, whose failure propagates to the
top-level `except`). -/
structure LightEnv where
  pjData : Option SProduct
  pageFetch : Except String PageDoc

/-- The body of `extract_product_details_light` under the top-level
`try`: tier 1 (endpoint JSON), tier 2 (embedded JSON), tier 3 (single
page price as a `'Standard'` entry — returned without deduplication,
per the early `return` at line 275). -/
def extractLightBody (env : LightEnv) : Except String (List SizePrice) :=
  match env.pjData with
  | some data => .ok (dedupCombos (variantCombos data))
  | none =>
    match env.pageFetch with
    | .error e => .error e
    | .ok doc =>
      match doc.embedded with
      | some data => .ok (dedupCombos (variantCombos data))
      | none =>
        .ok (match doc.priceContainer with
          | some raw =>
            match format_price raw with
            | some f => if f = "" then [] else [⟨"Standard", some f⟩]
            | none => []
          | none => [])

/-- `extract_product_details_light` (lines 196-343): assemble the
`ProductDetail`, converting any exception from the body into an empty
combination list plus a populated `error` field. -/
def extract_product_details_light (env : LightEnv)
    (product_url product_name : String) : ProductDetail :=
  match extractLightBody env with
  | .ok combos => ⟨product_name, product_url, combos, none⟩
  | .error e => ⟨product_name, product_url, [], some e⟩

/-! ### Claim C6 — tiered variant price parsing -/

/-- C6: `_parse_price_cents` follows the declared tiered rule — `None`
passes through, an `int` is already cents, a `float` is rounded from
dollars below 1000 and truncated as cents at or above 1000, a
digits-only string is cents, any other string parses as decimal dollars,
and an unparseable value yields `None`, in which case the variant is
skipped rather than recorded (given both price slots fail). -/
theorem parse_price_cents_tiered :
    parse_price_cents .vnone = none ∧
    (∀ n : Int, parse_price_cents (.vint n) = some n) ∧
    (∀ q : ℚ, q < 1000 → parse_price_cents (.vfloat q) = some (pyRound (q * 100))) ∧
    (∀ q : ℚ, 1000 ≤ q → parse_price_cents (.vfloat q) = some (pyTrunc q)) ∧
    (∀ s : String, isDigitStr (stripL s.data) = true →
      parse_price_cents (.vstr s) = some (digitsToNat (stripL s.data) : Int)) ∧
    (∀ s : String, ∀ q : ℚ, isDigitStr (stripL s.data) = false →
      parseDecimal (stripL s.data) = some q →
      parse_price_cents (.vstr s) = some (pyRound (q * 100))) ∧
    (∀ s : String, isDigitStr (stripL s.data) = false →
      parseDecimal (stripL s.data) = none →
      parse_price_cents (.vstr s) = none) ∧
    parse_price_cents .vother = none ∧
    (∀ (idx : Option Nat) (v : Variant), parse_price_cents v.price = none →
      parse_price_cents v.price_cents = none → variantCombo idx v = none) := by
  refine ⟨rfl, fun n => rfl, ?_, ?_, ?_, ?_, ?_, rfl, ?_⟩
  · intro q hq
    simp [parse_price_cents, hq]
  · intro q hq
    simp [parse_price_cents, not_lt.mpr hq]
  · intro s hd
    simp [parse_price_cents, hd]
  · intro s q hd hp
    simp [parse_price_cents, hd, hp]
  · intro s hd hp
    simp [parse_price_cents, hd, hp]
  · intro idx v h1 h2
    simp [variantCombo, h1, h2]

/-- C6 witness: the float heuristic at `7.0` (dollars) and `1000.0`
(cents), and the digit-string tier at `"1250"`. -/
theorem parse_price_cents_witness :
    parse_price_cents (.vfloat 7) = some (pyRound (7 * 100)) ∧
    parse_price_cents (.vfloat 1000) = some (pyTrunc 1000) ∧
    parse_price_cents (.vstr "1250") = some (digitsToNat (stripL ("1250" : String).data) : Int) :=
  ⟨parse_price_cents_tiered.2.2.1 7 (by norm_num),
   parse_price_cents_tiered.2.2.2.1 1000 (by norm_num),
   parse_price_cents_tiered.2.2.2.2.1 "1250" (by decide)⟩

/-! ### Product detail resolution — Selenium mode
(src/scraper.py lines 499-635) -/

/-- One `<label>` in the size fieldset: its (already text-content
resolved) label text, the `.price__container` text observed after
clicking it (`none` = `NoSuchElementException`), and whether processing
this label raised (caught by the inner `except`, which `continue`s). -/
structure SelLabel where
  text : String
  priceAfter : Option String
  fails : Bool

/-- Environment describing the effectful calls of the Selenium
`extract_product_details`: `nav = some e` means `driver.get`/setup raised
`e` (caught by the top-level `except`); `curPrice` is the initial
`.price__container` text; `fieldset` is the list of size labels, or
`none` when the fieldset is absent (single-size product path). -/
structure SelEnv where
  nav : Option String
  curPrice : Option String
  fieldset : Option (List SelLabel)

/-- Combination contributed by one size label (lines 538-583): skip on a
raised exception, clean the label text, and record the formatted price
when the container was found and the formatting is truthy. -/
def labelCombo (l : SelLabel) : Option SizePrice :=
  if l.fails then none
  else
    let st := cleanSizeSel (stripS l.text)
    match l.priceAfter with
    | some raw =>
      match format_price (stripS raw) with
      | some f => if f = "" then none else some ⟨st, some f⟩
      | none => none
    | none => none

/-- The body of the Selenium `extract_product_details` under the
top-level `try`: the fieldset loop when present, else the single-size
`'Standard'` entry from the current page price; both paths end in the
duplicate-removal pass of lines 612-620. -/
def extractSelBody (env : SelEnv) : Except String (List SizePrice) :=
  match env.nav with
  | some e => .error e
  | none =>
    let current_price := match env.curPrice with
      | some raw => format_price (stripS raw)
      | none => none
    match env.fieldset with
    | some labels => .ok (dedupCombos (labels.filterMap labelCombo))
    | none =>
      .ok (dedupCombos (match current_price with
        | some p => if p = "" then [] else [⟨"Standard", some p⟩]
        | none => []))

/-- `extract_product_details` (lines 499-635): assemble the
`ProductDetail`, converting any exception into an empty combination list
plus a populated `error` field (lines 626-635). -/
def extract_product_details (env : SelEnv)
    (product_url product_name : String) : ProductDetail :=
  match extractSelBody env with
  | .ok combos => ⟨product_name, product_url, combos, none⟩
  | .error e => ⟨product_name, product_url, [], some e⟩

/-! ### Claim C9 — identity preservation through detail resolution -/

/-- C9: in every branch of both detail resolvers — all resolution tiers
and the top-level error branch alike — the returned `ProductDetail`
carries exactly the input product name and URL. -/
theorem detail_resolvers_preserve_identity (product_url product_name : String) :
    (∀ env : LightEnv,
      (extract_product_details_light env product_url product_name).name = product_name ∧
      (extract_product_details_light env product_url product_name).url = product_url) ∧
    (∀ env : SelEnv,
      (extract_product_details env product_url product_name).name = product_name ∧
      (extract_product_details env product_url product_name).url = product_url) := by
  constructor
  · intro env
    unfold extract_product_details_light
    cases extractLightBody env <;> exact ⟨rfl, rfl⟩
  · intro env
    unfold extract_product_details
    cases extractSelBody env <;> exact ⟨rfl, rfl⟩

/-! ### Orchestrator batch loop (src/main.py lines 110-116) -/

/-- The per-collection product loop of `scrape`: visit each stub in
order (the page state met at the `i`-th visit is `envOf i`) and append
the resolver's `ProductDetail`. -/
def runBatchAux (envOf : Nat → SelEnv) : Nat → List Stub → List ProductDetail
  | _, [] => []
  | i, s :: rest =>
    extract_product_details (envOf i) s.url s.name :: runBatchAux envOf (i + 1) rest

/-- The batch over one collection's stub list. -/
def runBatch (envOf : Nat → SelEnv) (stubs : List Stub) : List ProductDetail :=
  runBatchAux envOf 0 stubs

/-- The batch always produces one record per stub. -/
theorem runBatchAux_length (envOf : Nat → SelEnv) :
    ∀ (stubs : List Stub) (i : Nat), (runBatchAux envOf i stubs).length = stubs.length := by
  intro stubs
  induction stubs with
  | nil => intro i; rfl
  | cons s rest ih => intro i; simp [runBatchAux, ih]

/-- Element-wise description of the batch output. -/
theorem runBatchAux_getElem (envOf : Nat → SelEnv) :
    ∀ (stubs : List Stub) (i j : Nat),
      (runBatchAux envOf i stubs)[j]? =
        (stubs[j]?).map (fun s => extract_product_details (envOf (i + j)) s.url s.name) := by
  intro stubs
  induction stubs with
  | nil => intro i j; simp [runBatchAux]
  | cons s rest ih =>
    intro i j
    cases j with
    | zero => simp [runBatchAux]
    | succ j =>
      simp only [runBatchAux, List.getElem?_cons_succ]
      rw [ih (i + 1) j]
      have : i + 1 + j = i + (j + 1) := by omega
      rw [this]

/-! ### Claim C1 — per-item failure isolation in the batch -/

/-- C1: if resolving stub `i` raises (its body yields an exception) while
every other stub resolves, the batch still yields one record per stub in
order; record `i` has an empty combination list and a populated `error`,
and every other record is exactly what resolution produces for its own
stub; no exception escapes the resolver call (it is total, returning a
`ProductDetail` for every environment). -/
theorem batch_isolates_single_failure (stubs : List Stub) (envOf : Nat → SelEnv)
    (i : Nat) (hi : i < stubs.length)
    (hfail : ∃ e, extractSelBody (envOf i) = .error e)
    (hok : ∀ j, j < stubs.length → j ≠ i → ∃ cs, extractSelBody (envOf j) = .ok cs) :
    (runBatch envOf stubs).length = stubs.length ∧
    (∃ d, (runBatch envOf stubs)[i]? = some d ∧
      d.size_price_combinations = [] ∧ d.error.isSome) ∧
    (∀ j s, j ≠ i → stubs[j]? = some s →
      (runBatch envOf stubs)[j]? =
        some (extract_product_details (envOf j) s.url s.name) ∧
      (extract_product_details (envOf j) s.url s.name).error = none) := by
  obtain ⟨e, he⟩ := hfail
  refine ⟨runBatchAux_length envOf stubs 0, ?_, ?_⟩
  · have hsome : stubs[i]? = some stubs[i] := List.getElem?_eq_getElem hi
    refine ⟨extract_product_details (envOf i) (stubs[i]).url (stubs[i]).name, ?_, ?_, ?_⟩
    · rw [runBatch, runBatchAux_getElem envOf stubs 0 i, hsome]
      simp
    · simp [extract_product_details, he]
    · simp [extract_product_details, he]
  · intro j s hj hs
    have hjlen : j < stubs.length := by
      by_contra hcon
      rw [List.getElem?_eq_none (by omega)] at hs
      exact Option.noConfusion hs
    obtain ⟨cs, hcs⟩ := hok j hjlen hj
    constructor
    · rw [runBatch, runBatchAux_getElem envOf stubs 0 j, hs]
      simp
    · simp [extract_product_details, hcs]

/-- Concrete batch for the C1 witness: stub 0 fails to navigate, stub 1
resolves to a detail-less page. -/
def c1FailEnvOf : Nat → SelEnv := fun i =>
  if i = 0 then ⟨some "net::ERR_CONNECTION_REFUSED", none, none⟩
  else ⟨none, none, none⟩

/-- C1 witness: the isolation theorem at a two-stub batch whose first
stub's navigation raises. -/
theorem batch_isolation_witness :
    (runBatch c1FailEnvOf [⟨"A", "uA"⟩, ⟨"B", "uB"⟩]).length = 2 ∧
    (∃ d, (runBatch c1FailEnvOf [⟨"A", "uA"⟩, ⟨"B", "uB"⟩])[0]? = some d ∧
      d.size_price_combinations = [] ∧ d.error.isSome) ∧
    (∀ j s, j ≠ 0 → ([⟨"A", "uA"⟩, (⟨"B", "uB"⟩ : Stub)])[j]? = some s →
      (runBatch c1FailEnvOf [⟨"A", "uA"⟩, ⟨"B", "uB"⟩])[j]? =
        some (extract_product_details (c1FailEnvOf j) s.url s.name) ∧
      (extract_product_details (c1FailEnvOf j) s.url s.name).error = none) :=
  batch_isolates_single_failure [⟨"A", "uA"⟩, ⟨"B", "uB"⟩] c1FailEnvOf 0
    (by decide)
    ⟨"net::ERR_CONNECTION_REFUSED", rfl⟩
    (by
      intro j hj hne
      match j, hj, hne with
      | 1, _, _ => exact ⟨[], rfl⟩)

/-! ### Collection paginator — lightweight mode
(src/scraper.py lines 85-157) -/

/-- Outcome of fetching one collection page: the HTTP GET raised, the
grid container is absent from the parsed document, or a grid whose items
each yield an optional stub (an item contributes a stub only when a
linked name and URL were both found, lines 118-141). -/
inductive PageFetch where
  | fetchErr
  | noGrid
  | grid (items : List (Option Stub))
deriving DecidableEq

/-- The per-item loop building `page_products` (lines 118-144): append
each extracted stub, breaking out as soon as `max_products` (0 = unset,
matching Python falsiness) is reached by the combined count. -/
def itemsLoop (maxProducts allLen : Nat) : Nat → List (Option Stub) → List Stub
  | _, [] => []
  | ppLen, item :: rest =>
    match item with
    | some stub =>
      if maxProducts ≠ 0 ∧ maxProducts ≤ allLen + (ppLen + 1) then [stub]
      else stub :: itemsLoop maxProducts allLen (ppLen + 1) rest
    | none =>
      if maxProducts ≠ 0 ∧ maxProducts ≤ allLen + ppLen then []
      else itemsLoop maxProducts allLen ppLen rest

/-- With no product cap the item loop just keeps every extracted stub. -/
theorem itemsLoop_no_cap (allLen : Nat) :
    ∀ (items : List (Option Stub)) (ppLen : Nat),
      itemsLoop 0 allLen ppLen items = items.filterMap id := by
  intro items
  induction items with
  | nil => intro ppLen; rfl
  | cons item rest ih =>
    intro ppLen
    cases item with
    | some stub => simp [itemsLoop, ih]
    | none => simp [itemsLoop, ih]

/-- The `while True` pagination loop (lines 95-155), fuel-indexed: the
guard `max_pages and page > max_pages` (0 = unset) is checked first, then
the page is fetched; a fetch error, a missing grid, or an empty stub
list ends the loop, as does reaching `max_products` after extending.
Returns the accumulated stubs together with the list of page numbers
actually fetched.  The wrapper passes fuel `max_pages + 1`, which the
`max_pages` guard makes exact whenever `max_pages ≠ 0` (the only mode the
repository uses — the default cap is 3). -/
def collectLoop (fetch : Nat → PageFetch) (maxPages maxProducts : Nat) :
    Nat → Nat → List Stub → List Stub × List Nat
  | 0, _, acc => (acc, [])
  | fuel + 1, page, acc =>
    if maxPages ≠ 0 ∧ maxPages < page then (acc, [])
    else
      match fetch page with
      | .fetchErr => (acc, [page])
      | .noGrid => (acc, [page])
      | .grid items =>
        let pageProducts := itemsLoop maxProducts acc.length 0 items
        if pageProducts = [] then (acc, [page])
        else
          if maxProducts ≠ 0 ∧ maxProducts ≤ (acc ++ pageProducts).length then
            (acc ++ pageProducts, [page])
          else
            let rest := collectLoop fetch maxPages maxProducts fuel (page + 1)
              (acc ++ pageProducts)
            (rest.1, page :: rest.2)

/-- `extract_products_from_collection_light` (lines 85-157), over an
abstract page-fetch oracle (the `?page=N` URL construction is folded
into the oracle's page index). -/
def extract_products_from_collection_light (fetch : Nat → PageFetch)
    (maxPages maxProducts : Nat) : List Stub × List Nat :=
  collectLoop fetch maxPages maxProducts (maxPages + 1) 1 []

/-- Stubs a given page contributes when fetched with no product cap. -/
def pageStubs (fetch : Nat → PageFetch) (j : Nat) : List Stub :=
  match fetch j with
  | .grid items => items.filterMap id
  | _ => []

/-- Loop invariant for Claim C4: starting from page `p ≤ k` with pages
`p..k-1` yielding non-empty grids and page `k` an empty grid, the loop
returns the accumulator extended by pages `p..k-1` and fetches exactly
pages `p..k`. -/
theorem collectLoop_empty_page (fetch : Nat → PageFetch) (maxPages k : Nat)
    (hkM : k ≤ maxPages)
    (hmid : ∀ j, 1 ≤ j → j < k →
      (∃ its, fetch j = .grid its) ∧ pageStubs fetch j ≠ [])
    (hk : ∃ its, fetch k = .grid its ∧ its.filterMap id = []) :
    ∀ (fuel p : Nat) (acc : List Stub), 1 ≤ p → p ≤ k → k - p < fuel →
      collectLoop fetch maxPages 0 fuel p acc =
        (acc ++ (List.range' p (k - p)).flatMap (pageStubs fetch),
         List.range' p (k - p + 1)) := by
  intro fuel
  induction fuel with
  | zero => intro p acc h1 h2 h3; omega
  | succ fuel ih =>
    intro p acc h1 h2 h3
    have hguard : ¬(maxPages ≠ 0 ∧ maxPages < p) := by omega
    rw [collectLoop, if_neg hguard]
    by_cases hpk : p = k
    · subst hpk
      obtain ⟨its, hf, hemp⟩ := hk
      rw [hf]
      simp only [itemsLoop_no_cap, hemp]
      simp
    · have hplt : p < k := by omega
      obtain ⟨⟨its, hf⟩, hne⟩ := hmid p h1 hplt
      rw [hf]
      simp only [itemsLoop_no_cap]
      have hstubs : its.filterMap id = pageStubs fetch p := by
        simp [pageStubs, hf]
      rw [hstubs]
      rw [if_neg hne]
      have hcap : ¬((0 : Nat) ≠ 0 ∧ 0 ≤ (acc ++ pageStubs fetch p).length) := by simp
      rw [if_neg hcap]
      rw [ih (p + 1) (acc ++ pageStubs fetch p) (by omega) (by omega) (by omega)]
      have hd : k - p = (k - (p + 1)) + 1 := by omega
      dsimp only
      rw [Prod.mk.injEq]
      constructor
      · rw [hd, List.range'_succ, List.flatMap_cons, List.append_assoc]
      · rw [show k - p + 1 = (k - (p + 1) + 1) + 1 by omega, List.range'_succ,
          List.range'_succ, List.range'_succ]

/-! ### Claim C4 — pagination terminates on the first empty page -/

/-- C4: when page `k` (within the `max_pages` cap, no product cap) is the
first page whose grid yields zero stubs, the paginator returns exactly
the concatenated stubs of pages `1..k-1` in page order, fetches exactly
pages `1..k`, and in particular never fetches page `k+1`. -/
theorem pagination_stops_on_empty_page (fetch : Nat → PageFetch) (maxPages k : Nat)
    (hk1 : 1 ≤ k) (hkM : k ≤ maxPages)
    (hmid : ∀ j, 1 ≤ j → j < k →
      (∃ its, fetch j = .grid its) ∧ pageStubs fetch j ≠ [])
    (hk : ∃ its, fetch k = .grid its ∧ its.filterMap id = []) :
    extract_products_from_collection_light fetch maxPages 0 =
      ((List.range' 1 (k - 1)).flatMap (pageStubs fetch), List.range' 1 k) ∧
    (k + 1) ∉ (extract_products_from_collection_light fetch maxPages 0).2 := by
  have h := collectLoop_empty_page fetch maxPages k hkM hmid hk
    (maxPages + 1) 1 [] (by omega) hk1 (by omega)
  rw [extract_products_from_collection_light, h]
  constructor
  · rw [show k - 1 + 1 = k by omega]
    simp
  · intro hmem
    rw [show k - 1 + 1 = k by omega] at hmem
    have := List.mem_range'_1.mp hmem
    omega

/-- Concrete two-page collection for the C4 witness: page 1 carries one
stub, page 2 is an empty grid. -/
def c4Fetch : Nat → PageFetch := fun j =>
  if j = 1 then .grid [some ⟨"Shampoo", "u1"⟩] else .grid []

/-- C4 witness: the pagination theorem at the two-page collection with
`max_pages = 3`; page 3 is never fetched. -/
theorem pagination_witness :
    extract_products_from_collection_light c4Fetch 3 0 =
      ((List.range' 1 1).flatMap (pageStubs c4Fetch), List.range' 1 2) ∧
    (3 : Nat) ∉ (extract_products_from_collection_light c4Fetch 3 0).2 :=
  pagination_stops_on_empty_page c4Fetch 3 2 (by omega) (by omega)
    (by
      intro j h1 h2
      have hj : j = 1 := by omega
      subst hj
      exact ⟨⟨[some ⟨"Shampoo", "u1"⟩], rfl⟩, by decide⟩)
    ⟨[], rfl, rfl⟩

/-! ### Harvest orchestrator — result assembly (src/main.py lines 94-126) -/

/-- The `HarvestResult` dictionary assembled at lines 119-126. -/
structure HarvestResult where
  collection_urls : List String
  total_collections : Nat
  total_products : Nat
  scraped_at : String
  products : List ProductDetail
  status : String
deriving DecidableEq

/-- The accumulation of `all_detailed_products` (lines 94-116): for each
collection URL in order, paginate (`stubsOf`) and run the product batch;
a collection with no stubs contributes nothing (`continue`). -/
def harvestProducts (urls : List String) (stubsOf : String → List Stub)
    (envOf : String → Nat → SelEnv) : List ProductDetail :=
  urls.flatMap (fun u => runBatch (envOf u) (stubsOf u))

/-- The successful-path result of the `scrape` endpoint (lines 119-126):
counts, timestamp, the accumulated products, and `'completed'`. -/
def scrapeResult (urls : List String) (stubsOf : String → List Stub)
    (envOf : String → Nat → SelEnv) (ts : String) : HarvestResult :=
  { collection_urls := urls
    total_collections := urls.length
    total_products := (harvestProducts urls stubsOf envOf).length
    scraped_at := ts
    products := harvestProducts urls stubsOf envOf
    status := "completed" }

/-! ### Claim C10 — count consistency of the assembled result -/

/-- C10: in every result the orchestrator assembles, `total_products` is
the length of `products`, `total_collections` is the length of
`collection_urls`, and `collection_urls` is exactly the input list. -/
theorem harvest_result_counts (urls : List String) (stubsOf : String → List Stub)
    (envOf : String → Nat → SelEnv) (ts : String) :
    (scrapeResult urls stubsOf envOf ts).total_products =
      (scrapeResult urls stubsOf envOf ts).products.length ∧
    (scrapeResult urls stubsOf envOf ts).total_collections =
      (scrapeResult urls stubsOf envOf ts).collection_urls.length ∧
    (scrapeResult urls stubsOf envOf ts).collection_urls = urls :=
  ⟨rfl, rfl, rfl⟩

/-! ### Single-flight guard of the `scrape` endpoint
(src/main.py lines 36-143) -/

/-- The process-wide `scraping_status` record (lines 37-42). -/
structure Status where
  isRunning : Bool
  lastRun : Option String
  lastResult : Option HarvestResult
  error : Option String
deriving DecidableEq

/-- Responses the `scrape` endpoint can produce. -/
inductive ScrapeResponse where
  | conflict (error status : String)
  | badRequest (error : String)
  | ok (r : HarvestResult)
  | serverError (error status : String)
deriving DecidableEq

/-- The guard at the top of `scrape` (lines 63-67): an in-progress
harvest makes the endpoint return the 409 conflict body immediately,
before anything is mutated. -/
def guardCheck (st : Status) : Option ScrapeResponse :=
  if st.isRunning then some (.conflict "Scraping is already in progress" "running")
  else none

/-- Observable phases of a request against the shared status record. -/
inductive SLabel where
  | rejected
  | invalidInput
  | started
  | completed (r : HarvestResult) (ts : String)
  | failed (e : String)

/-- `l` is the first step a freshly arrived request can take (the guard
rejection, the 400 validation exit, or actually starting a harvest). -/
def RequestEntry : SLabel → Prop := fun l =>
  l = .rejected ∨ l = .invalidInput ∨ l = .started

/-- Transitions of the `scrape` endpoint on the shared state, each
handler phase taken atomically; the `Nat` component is a ghost counter
of harvests in flight.  `reject` is lines 63-67 (state untouched),
`invalid` the 400 exit of lines 82-85, `start` lines 90-91, `complete`
lines 119-137 (store result, clear the flag), `fail` lines 139-143. -/
inductive ScrapeStep : Status × Nat → SLabel → Status × Nat → Prop where
  | reject (st : Status) (n : Nat) : st.isRunning = true →
      ScrapeStep (st, n) .rejected (st, n)
  | invalid (st : Status) (n : Nat) : st.isRunning = false →
      ScrapeStep (st, n) .invalidInput (st, n)
  | start (st : Status) (n : Nat) : st.isRunning = false →
      ScrapeStep (st, n) .started
        ({ st with isRunning := true, error := none }, n + 1)
  | complete (st : Status) (n : Nat) (r : HarvestResult) (ts : String) :
      st.isRunning = true →
      ScrapeStep (st, n) (.completed r ts)
        ({ st with isRunning := false, lastResult := some r, lastRun := some ts }, n - 1)
  | fail (st : Status) (n : Nat) (e : String) : st.isRunning = true →
      ScrapeStep (st, n) (.failed e) ({ st with isRunning := false }, n - 1)

/-- The server's initial state: the module-level `scraping_status`. -/
def initState : Status × Nat := (⟨false, none, none, none⟩, 0)

/-- States reachable from the initial status record by endpoint steps. -/
def Reachable : Status × Nat → Prop :=
  Relation.ReflTransGen (fun a b => ∃ l, ScrapeStep a l b) initState

/-- The ghost in-flight counter always matches the `is_running` flag. -/
theorem reachable_inflight (s : Status × Nat) (h : Reachable s) :
    s.2 = (if s.1.isRunning then 1 else 0) := by
  induction h with
  | refl => rfl
  | tail _ hstep ih =>
    obtain ⟨l, hstep⟩ := hstep
    cases hstep with
    | reject st n hr => simpa [hr] using ih
    | invalid st n hr => simpa [hr] using ih
    | start st n hr =>
      simp only [hr, if_neg Bool.false_ne_true] at ih
      simp [ih]
    | complete st n r ts hr =>
      simp only [hr, if_pos rfl] at ih
      simp [ih]
    | fail st n e hr =>
      simp only [hr, if_pos rfl] at ih
      simp [ih]

/-! ### Claim C8 — single-flight guard -/

/-- C8: while a harvest is in progress, a new request's only possible
entry step is the immediate conflict rejection, which returns the 409
body, starts nothing, and leaves the status record exactly as it was;
a harvest can only start when none is running, and in every reachable
server state at most one harvest is in flight. -/
theorem scrape_single_flight :
    (∀ st : Status, st.isRunning = true →
      guardCheck st = some (.conflict "Scraping is already in progress" "running")) ∧
    (∀ (st : Status) (n : Nat) (l : SLabel) (s2 : Status × Nat),
      ScrapeStep (st, n) l s2 → st.isRunning = true → RequestEntry l →
      l = .rejected ∧ s2 = (st, n)) ∧
    (∀ (st : Status) (n : Nat) (s2 : Status × Nat),
      ScrapeStep (st, n) .started s2 → st.isRunning = false) ∧
    (∀ s : Status × Nat, Reachable s → s.2 ≤ 1) := by
  refine ⟨?_, ?_, ?_, ?_⟩
  · intro st hr
    simp [guardCheck, hr]
  · intro st n l s2 hstep hr hentry
    cases hstep with
    | reject => exact ⟨rfl, rfl⟩
    | invalid st n h => rw [h] at hr; exact absurd hr (by simp)
    | start st n h => rw [h] at hr; exact absurd hr (by simp)
    | complete st n r ts h =>
      rcases hentry with he | he | he <;> exact SLabel.noConfusion he
    | fail st n e h =>
      rcases hentry with he | he | he <;> exact SLabel.noConfusion he
  · intro st n s2 hstep
    cases hstep with
    | start st n h => exact h
  · intro s hs
    rw [reachable_inflight s hs]
    split <;> omega

/-- C8 witness: the guard applied to a running status, and the in-flight
bound at the initial state. -/
theorem scrape_single_flight_witness :
    guardCheck ⟨true, none, none, none⟩ =
      some (.conflict "Scraping is already in progress" "running") ∧
    initState.2 ≤ 1 :=
  ⟨scrape_single_flight.1 ⟨true, none, none, none⟩ rfl,
   scrape_single_flight.2.2.2 initState Relation.ReflTransGen.refl⟩

end Scraper
